import Mathlib

/-!
Verification of the market-pair streaming and signal-detection core of a
Polymarket arbitrage/scalp bot.

The development shallowly embeds the two stateful components of the source:

* `ScalpState` (src/scalp.rs): the per-market momentum ("scalp") detector with
  its mid-price baselines, open positions and daily trade counter.
* `OrderBookMonitor` (src/monitor/orderbook.rs): the subscription registry and
  book cache that turns single-instrument `BookUpdate`s into YES/NO pairs.

Modelling conventions:

* `rust_decimal::Decimal` prices are modelled as `ℚ`.  Decimal division by a
  zero divisor panics in the source, so `detect_signal` returns
  `Option (Bool × ScalpState)`, with `none` standing for the panic.
* `Instant`/`Duration` are modelled as `ℕ` instants passed explicitly;
  `Instant::elapsed` saturates, matching truncated `ℕ` subtraction.
* `B256`/`U256` identifiers are modelled as `ℕ`.
* `HashMap`/`DashMap` are modelled as association lists with overwrite-on-insert
  (`insertA`) and remove (`eraseA`); iteration order of `market_map` is the
  list order, standing in for the unspecified `HashMap` iteration order.
* `trades_today` is a `u32`; its increment is taken modulo `2 ^ 32`.
-/

namespace PolyBot

/-- One price level of an order book (`price`, `size`), as in the SDK's
`BookUpdate` levels. -/
structure Level where
  price : ℚ
  size : ℚ
deriving DecidableEq

/-- The SDK's `BookUpdate`: an instrument id together with the bid and ask
sides of its book, best price first. -/
structure BookUpdate where
  asset_id : ℕ
  bids : List Level
  asks : List Level
deriving DecidableEq

/-- Association-list lookup, standing in for `HashMap::get`. -/
def lookupA {α : Type} : List (ℕ × α) → ℕ → Option α
  | [], _ => none
  | (k, v) :: rest, k' => if k' = k then some v else lookupA rest k'

/-- Association-list removal, standing in for `HashMap::remove`. -/
def eraseA {α : Type} (l : List (ℕ × α)) (k : ℕ) : List (ℕ × α) :=
  l.filter (fun p => decide (p.1 ≠ k))

/-- Association-list overwrite, standing in for `HashMap::insert`. -/
def insertA {α : Type} (l : List (ℕ × α)) (k : ℕ) (v : α) : List (ℕ × α) :=
  (k, v) :: eraseA l k

/-- `ScalpPosition` from src/scalp.rs: entry price, notional size and the
instant the position was opened. -/
structure ScalpPosition where
  entry_price : ℚ
  size_usdc : ℚ
  opened_at : ℕ
deriving DecidableEq

/-- `ScalpState` from src/scalp.rs: per-market last mid price baselines,
per-market open positions, and the `u32` trade counter. -/
structure ScalpState where
  last_mid_price : List (ℕ × ℚ)
  positions : List (ℕ × ScalpPosition)
  trades_today : ℕ
deriving DecidableEq

/-- `ScalpState::new`. -/
def ScalpState.new : ScalpState :=
  { last_mid_price := [], positions := [], trades_today := 0 }

/-- `ScalpState::mid_price`: the average of the best bid and best ask, `none`
when either side of the book is empty. -/
def ScalpState.mid_price (book : BookUpdate) : Option ℚ :=
  match book.bids.head?, book.asks.head? with
  | some bid, some ask => some ((bid.price + ask.price) / 2)
  | _, _ => none

/-- `ScalpState::detect_signal`.  Returns `none` where the source panics:
`(mid - last) / last` with `last = 0` is a `Decimal` division by zero. -/
def ScalpState.detect_signal (st : ScalpState) (market_id : ℕ) (yes_book : BookUpdate)
    (threshold_pct : ℚ) : Option (Bool × ScalpState) :=
  match ScalpState.mid_price yes_book with
  | none => some (false, st)
  | some mid =>
    match lookupA st.last_mid_price market_id with
    | none =>
      some (false, { st with last_mid_price := insertA st.last_mid_price market_id mid })
    | some last =>
      if last = 0 then none
      else
        let diff := (mid - last) / last
        some (decide (threshold_pct ≤ |diff|),
          { st with last_mid_price := insertA st.last_mid_price market_id mid })

/-- `ScalpState::can_open_trade`. -/
def ScalpState.can_open_trade (st : ScalpState) (max_trades_per_day : ℕ) : Bool :=
  decide (st.trades_today < max_trades_per_day)

/-- `ScalpState::open_position`; `now` is the `Instant::now()` of the call and
the `u32` counter wraps at `2 ^ 32`. -/
def ScalpState.open_position (st : ScalpState) (market_id : ℕ) (entry_price size_usdc : ℚ)
    (now : ℕ) : ScalpState :=
  { st with
    positions := insertA st.positions market_id
      { entry_price := entry_price, size_usdc := size_usdc, opened_at := now }
    trades_today := (st.trades_today + 1) % 2 ^ 32 }

/-- `ScalpState::close_position` (the `reason` argument only feeds logging and
is omitted). -/
def ScalpState.close_position (st : ScalpState) (market_id : ℕ) : ScalpState :=
  { st with positions := eraseA st.positions market_id }

/-- `ScalpState::get_position`. -/
def ScalpState.get_position (st : ScalpState) (market_id : ℕ) : Option ScalpPosition :=
  lookupA st.positions market_id

/-- `ScalpState::is_expired`; `now` is the current instant, so
`p.opened_at.elapsed()` is the saturating `now - p.opened_at`. -/
def ScalpState.is_expired (st : ScalpState) (now market_id max_hold : ℕ) : Bool :=
  match lookupA st.positions market_id with
  | some p => decide (max_hold ≤ now - p.opened_at)
  | none => false

/-- `OrderBookPair` from src/monitor/orderbook.rs. -/
structure OrderBookPair where
  yes_book : BookUpdate
  no_book : BookUpdate
  market_id : ℕ
deriving DecidableEq

/-- `OrderBookMonitor` from src/monitor/orderbook.rs: the `DashMap` book cache
keyed by token id and the `HashMap` from market id to its (YES, NO) token ids.
The websocket client is an external collaborator and is not modelled. -/
structure OrderBookMonitor where
  books : List (ℕ × BookUpdate)
  market_map : List (ℕ × ℕ × ℕ)
deriving DecidableEq

/-- `OrderBookMonitor::new`. -/
def OrderBookMonitor.new : OrderBookMonitor :=
  { books := [], market_map := [] }

/-- `OrderBookMonitor::subscribe_market`: upsert the market's (YES, NO) token
ids into the market map. -/
def OrderBookMonitor.subscribe_market (st : OrderBookMonitor)
    (market_id yes_token_id no_token_id : ℕ) : OrderBookMonitor :=
  { st with market_map := insertA st.market_map market_id (yes_token_id, no_token_id) }

/-- The token-id list collected by `create_orderbook_stream`:
`market_map.values().flat_map(|(y, n)| [*y, *n])`. -/
def OrderBookMonitor.token_ids (st : OrderBookMonitor) : List ℕ :=
  st.market_map.flatMap (fun e => [e.2.1, e.2.2])

/-- `OrderBookMonitor::create_orderbook_stream`, up to the external websocket
call: errors when the token-id list is empty, otherwise subscribes to exactly
`token_ids`. -/
def OrderBookMonitor.create_orderbook_stream (st : OrderBookMonitor) :
    Except String (List ℕ) :=
  if st.token_ids.isEmpty then Except.error "没有市场需要订阅"
  else Except.ok st.token_ids

/-- The market-map scan inside `handle_book_update`: first registered market
one of whose sides equals the update's `asset_id` and whose other side is
cached yields the pair; a match whose other side is missing falls through to
the remaining markets. -/
def findPair (books : List (ℕ × BookUpdate)) (book : BookUpdate) :
    List (ℕ × ℕ × ℕ) → Option OrderBookPair
  | [] => none
  | (market_id, yes, no) :: rest =>
    if book.asset_id = yes then
      match lookupA books no with
      | some no_book => some { yes_book := book, no_book := no_book, market_id := market_id }
      | none => findPair books book rest
    else if book.asset_id = no then
      match lookupA books yes with
      | some yes_book => some { yes_book := yes_book, no_book := book, market_id := market_id }
      | none => findPair books book rest
    else
      findPair books book rest

/-- `OrderBookMonitor::handle_book_update`: cache the update, then scan the
market map for a completed pair.  Returns the emitted pair (if any) together
with the monitor after the cache write. -/
def OrderBookMonitor.handle_book_update (st : OrderBookMonitor) (book : BookUpdate) :
    Option OrderBookPair × OrderBookMonitor :=
  let books' := insertA st.books book.asset_id book
  (findPair books' book st.market_map, { st with books := books' })

/-- `OrderBookMonitor::get_book`. -/
def OrderBookMonitor.get_book (st : OrderBookMonitor) (token_id : ℕ) : Option BookUpdate :=
  lookupA st.books token_id

/-- Feed a sequence of book updates through `handle_book_update`, keeping only
the evolving monitor state. -/
def OrderBookMonitor.run_updates : OrderBookMonitor → List BookUpdate → OrderBookMonitor
  | st, [] => st
  | st, u :: rest => OrderBookMonitor.run_updates (st.handle_book_update u).2 rest

/-- Well-formed subscription registry: every market's YES and NO token ids are
distinct, and no token id is shared between two registered markets (the 1:1
instrument-to-market-side assumption of the design). -/
def WFmap (mm : List (ℕ × ℕ × ℕ)) : Prop :=
  (∀ e ∈ mm, e.2.1 ≠ e.2.2) ∧
    mm.Pairwise (fun a b => a.2.1 ≠ b.2.1 ∧ a.2.1 ≠ b.2.2 ∧ a.2.2 ≠ b.2.1 ∧ a.2.2 ≠ b.2.2)

/-! ### Association-list lemmas -/

theorem lookupA_insert_self {α : Type} (l : List (ℕ × α)) (k : ℕ) (v : α) :
    lookupA (insertA l k v) k = some v := by
  simp [insertA, lookupA]

theorem lookupA_erase_ne {α : Type} (l : List (ℕ × α)) (k k' : ℕ) (h : k' ≠ k) :
    lookupA (eraseA l k) k' = lookupA l k' := by
  induction l with
  | nil => rfl
  | cons p rest ih =>
    obtain ⟨a, b⟩ := p
    by_cases hak : a = k
    · subst hak
      simp [eraseA, lookupA, List.filter_cons, h, ih] at ih ⊢
      exact ih
    · simp [eraseA, lookupA, List.filter_cons, hak] at ih ⊢
      by_cases hka : k' = a
      · simp [hka]
      · simp [hka, ih]

theorem lookupA_insert_ne {α : Type} (l : List (ℕ × α)) (k k' : ℕ) (v : α) (h : k' ≠ k) :
    lookupA (insertA l k v) k' = lookupA l k' := by
  simp [insertA, lookupA, h, lookupA_erase_ne l k k' h]

theorem eraseA_eq_of_lookupA_none {α : Type} (l : List (ℕ × α)) (k : ℕ)
    (h : lookupA l k = none) : eraseA l k = l := by
  induction l with
  | nil => rfl
  | cons p rest ih =>
    obtain ⟨a, b⟩ := p
    by_cases hka : k = a
    · simp [lookupA, hka] at h
    · simp [lookupA, hka] at h
      have hak : a ≠ k := fun hh => hka hh.symm
      simp [eraseA, List.filter_cons, hak] at ih ⊢
      exact ih h

/-- Every `some` result of `detect_signal` leaves positions and the trade
counter of the state untouched; only `last_mid_price` may change. -/
theorem detect_signal_preserves (st st' : ScalpState) (m : ℕ) (b : BookUpdate) (th : ℚ)
    (r : Bool) (hd : st.detect_signal m b th = some (r, st')) :
    st'.positions = st.positions ∧ st'.trades_today = st.trades_today := by
  unfold ScalpState.detect_signal at hd
  split at hd
  · simp only [Option.some.injEq, Prod.mk.injEq] at hd
    rw [← hd.2]
    exact ⟨rfl, rfl⟩
  · split at hd
    · simp only [Option.some.injEq, Prod.mk.injEq] at hd
      rw [← hd.2]
      exact ⟨rfl, rfl⟩
    · split at hd
      · exact absurd hd (by simp)
      · simp only [Option.some.injEq, Prod.mk.injEq] at hd
        rw [← hd.2]
        exact ⟨rfl, rfl⟩

/-- A book with an empty side has no mid price. -/
theorem mid_price_none (b : BookUpdate) (h : b.bids = [] ∨ b.asks = []) :
    ScalpState.mid_price b = none := by
  rcases h with h | h
  · simp [ScalpState.mid_price, h]
  · cases hb : b.bids.head? <;> simp [ScalpState.mid_price, h, hb]

/-! ### Claims about the scalp detector -/

/-- Claim C2: on a market with a stored (nonzero) baseline and a YES snapshot
with both a best bid and a best ask, `detect_signal` returns `true` exactly
when `|(mid - baseline) / baseline| ≥ threshold_pct` (the boundary case
signals), and afterwards the stored baseline equals the new mid-price whether
or not it signalled. -/
theorem detect_signal_with_baseline (st : ScalpState) (m : ℕ) (b : BookUpdate)
    (th last : ℚ) (bid ask : Level)
    (hb : b.bids.head? = some bid) (ha : b.asks.head? = some ask)
    (hlast : lookupA st.last_mid_price m = some last) (hnz : last ≠ 0) :
    st.detect_signal m b th =
      some (decide (th ≤ |((bid.price + ask.price) / 2 - last) / last|),
        { st with last_mid_price := insertA st.last_mid_price m ((bid.price + ask.price) / 2) }) ∧
    lookupA (insertA st.last_mid_price m ((bid.price + ask.price) / 2)) m =
      some ((bid.price + ask.price) / 2) := by
  constructor
  · simp [ScalpState.detect_signal, ScalpState.mid_price, hb, ha, hlast, hnz]
  · exact lookupA_insert_self _ _ _

/-- Witness for C2 at the spec's own example: baseline `0.50`, threshold
`0.01`, new mid `0.505` — the boundary-inclusive comparison signals. -/
theorem detect_signal_with_baseline_witness :
    ScalpState.detect_signal ⟨[(4, 1/2)], [], 0⟩ 4 ⟨2, [⟨1/2, 1⟩], [⟨51/100, 1⟩]⟩ (1/100) =
      some (decide ((1/100 : ℚ) ≤ |(((1:ℚ)/2 + 51/100) / 2 - 1/2) / (1/2)|),
        { last_mid_price := insertA [(4, 1/2)] 4 (((1:ℚ)/2 + 51/100) / 2),
          positions := [], trades_today := 0 }) ∧
    lookupA (insertA [(4, 1/2)] 4 (((1:ℚ)/2 + 51/100) / 2)) 4 =
      some (((1:ℚ)/2 + 51/100) / 2) :=
  detect_signal_with_baseline ⟨[(4, 1/2)], [], 0⟩ 4 ⟨2, [⟨1/2, 1⟩], [⟨51/100, 1⟩]⟩ (1/100)
    (1/2) ⟨1/2, 1⟩ ⟨51/100, 1⟩ rfl rfl rfl (by norm_num)

/-- Claim C3: the first `detect_signal` call for a market (no stored baseline)
with a two-sided YES snapshot returns `false` for any price and threshold and
stores `(best bid + best ask) / 2` as the market's baseline. -/
theorem detect_signal_first_observed (st : ScalpState) (m : ℕ) (b : BookUpdate)
    (th : ℚ) (bid ask : Level)
    (hb : b.bids.head? = some bid) (ha : b.asks.head? = some ask)
    (hnone : lookupA st.last_mid_price m = none) :
    st.detect_signal m b th =
      some (false,
        { st with last_mid_price := insertA st.last_mid_price m ((bid.price + ask.price) / 2) }) ∧
    lookupA (insertA st.last_mid_price m ((bid.price + ask.price) / 2)) m =
      some ((bid.price + ask.price) / 2) := by
  constructor
  · simp [ScalpState.detect_signal, ScalpState.mid_price, hb, ha, hnone]
  · exact lookupA_insert_self _ _ _

/-- Witness for C3 at a concrete fresh state and book. -/
theorem detect_signal_first_observed_witness :
    ScalpState.detect_signal ScalpState.new 1 ⟨2, [⟨1/2, 1⟩], [⟨51/100, 1⟩]⟩ (1/100) =
      some (false,
        { last_mid_price := insertA ScalpState.new.last_mid_price 1 (((1:ℚ)/2 + 51/100) / 2),
          positions := [], trades_today := 0 }) ∧
    lookupA (insertA ScalpState.new.last_mid_price 1 (((1:ℚ)/2 + 51/100) / 2)) 1 =
      some (((1:ℚ)/2 + 51/100) / 2) :=
  detect_signal_first_observed ScalpState.new 1 ⟨2, [⟨1/2, 1⟩], [⟨51/100, 1⟩]⟩ (1/100)
    ⟨1/2, 1⟩ ⟨51/100, 1⟩ rfl rfl rfl

/-- Claim C4: when the YES snapshot has an empty bid or ask list,
`detect_signal` returns `false` and the whole state — baselines, positions and
trade counter — is returned unchanged. -/
theorem detect_signal_empty_book (st : ScalpState) (m : ℕ) (b : BookUpdate) (th : ℚ)
    (h : b.bids = [] ∨ b.asks = []) :
    st.detect_signal m b th = some (false, st) := by
  simp [ScalpState.detect_signal, mid_price_none b h]

/-- Witness for C4: nonempty state, book with bids but no asks. -/
theorem detect_signal_empty_book_witness :
    ScalpState.detect_signal ⟨[(7, 1/2)], [(3, ⟨1/2, 5, 10⟩)], 3⟩ 7 ⟨9, [⟨1/2, 1⟩], []⟩ (1/100) =
      some (false, ⟨[(7, 1/2)], [(3, ⟨1/2, 5, 10⟩)], 3⟩) :=
  detect_signal_empty_book ⟨[(7, 1/2)], [(3, ⟨1/2, 5, 10⟩)], 3⟩ 7 ⟨9, [⟨1/2, 1⟩], []⟩ (1/100)
    (Or.inr rfl)

/-- Claim C5: `open_position` increments `trades_today` by exactly one (below
the `u32` wrap bound), and neither `close_position` nor a returning
`detect_signal` ever changes it. -/
theorem trades_today_monotone (st st' : ScalpState) (m m2 m3 : ℕ) (e s th : ℚ)
    (now : ℕ) (b : BookUpdate) (r : Bool)
    (hov : st.trades_today + 1 < 2 ^ 32)
    (hd : st.detect_signal m3 b th = some (r, st')) :
    (st.open_position m e s now).trades_today = st.trades_today + 1 ∧
    (st.close_position m2).trades_today = st.trades_today ∧
    st'.trades_today = st.trades_today := by
  refine ⟨?_, rfl, (detect_signal_preserves st st' m3 b th r hd).2⟩
  show (st.trades_today + 1) % 2 ^ 32 = st.trades_today + 1
  exact Nat.mod_eq_of_lt hov

/-- Witness for C5 at a fresh state (the `detect_signal` step feeds an empty
book, whose result is `some (false, st)`). -/
theorem trades_today_monotone_witness :
    (ScalpState.open_position ScalpState.new 1 (1/2) 5 100).trades_today =
      ScalpState.new.trades_today + 1 ∧
    (ScalpState.close_position ScalpState.new 2).trades_today =
      ScalpState.new.trades_today ∧
    ScalpState.new.trades_today = ScalpState.new.trades_today :=
  trades_today_monotone ScalpState.new ScalpState.new 1 2 3 (1/2) 5 (1/100) 100
    ⟨9, [], []⟩ false (by decide) rfl

/-- Claim C6: `is_expired` is `true` exactly when an open position exists for
the market and the (saturating) elapsed time since it was opened is at least
`max_hold`; with no open position it returns `false`. -/
theorem is_expired_iff (st : ScalpState) (now m max_hold : ℕ) :
    st.is_expired now m max_hold = true ↔
      ∃ p, lookupA st.positions m = some p ∧ max_hold ≤ now - p.opened_at := by
  unfold ScalpState.is_expired
  cases hp : lookupA st.positions m with
  | none => simp
  | some p => simp [hp]

/-- Claim C7: closing a position on a market with no open position is a total
no-op — the state (positions, baselines, trade counter) is returned identical —
and doing it twice still returns the original state. -/
theorem close_position_noop (st : ScalpState) (m : ℕ)
    (h : lookupA st.positions m = none) :
    st.close_position m = st ∧ (st.close_position m).close_position m = st := by
  have h1 : st.close_position m = st := by
    unfold ScalpState.close_position
    rw [eraseA_eq_of_lookupA_none st.positions m h]
  exact ⟨h1, by rw [h1, h1]⟩

/-- Witness for C7 on a state holding an open position for a different market. -/
theorem close_position_noop_witness :
    ScalpState.close_position ⟨[(1, 1/2)], [(2, ⟨1/2, 5, 10⟩)], 3⟩ 9 =
      ⟨[(1, 1/2)], [(2, ⟨1/2, 5, 10⟩)], 3⟩ ∧
    (ScalpState.close_position ⟨[(1, 1/2)], [(2, ⟨1/2, 5, 10⟩)], 3⟩ 9).close_position 9 =
      ⟨[(1, 1/2)], [(2, ⟨1/2, 5, 10⟩)], 3⟩ :=
  close_position_noop ⟨[(1, 1/2)], [(2, ⟨1/2, 5, 10⟩)], 3⟩ 9 rfl

/-- Claim C9: a snapshot with best bid and best ask both `0` stores a baseline
of exactly `0`; the next `detect_signal` call for that market with a two-sided
book divides by the zero baseline and panics (modelled as `none`) instead of
returning a bool. -/
theorem detect_signal_zero_baseline_panics (st : ScalpState) (m : ℕ)
    (b0 b1 : BookUpdate) (th0 th1 : ℚ) (bid0 ask0 bid1 ask1 : Level)
    (hb0 : b0.bids.head? = some bid0) (ha0 : b0.asks.head? = some ask0)
    (hz : bid0.price = 0) (hz' : ask0.price = 0)
    (hb1 : b1.bids.head? = some bid1) (ha1 : b1.asks.head? = some ask1)
    (hnone : lookupA st.last_mid_price m = none) :
    ∃ st', st.detect_signal m b0 th0 = some (false, st') ∧
      st'.detect_signal m b1 th1 = none := by
  refine ⟨{ st with last_mid_price := insertA st.last_mid_price m 0 }, ?_, ?_⟩
  · have hm0 : ScalpState.mid_price b0 = some 0 := by
      simp [ScalpState.mid_price, hb0, ha0, hz, hz']
    simp [ScalpState.detect_signal, hm0, hnone]
  · have hm1 : ScalpState.mid_price b1 = some ((bid1.price + ask1.price) / 2) := by
      simp [ScalpState.mid_price, hb1, ha1]
    simp [ScalpState.detect_signal, hm1, lookupA_insert_self]

/-- Witness for C9: an all-zero book followed by a normal one. -/
theorem detect_signal_zero_baseline_panics_witness :
    ∃ st', ScalpState.detect_signal ScalpState.new 2 ⟨5, [⟨0, 1⟩], [⟨0, 1⟩]⟩ (1/100) =
        some (false, st') ∧
      st'.detect_signal 2 ⟨5, [⟨1/2, 1⟩], [⟨51/100, 1⟩]⟩ (1/100) = none :=
  detect_signal_zero_baseline_panics ScalpState.new 2 ⟨5, [⟨0, 1⟩], [⟨0, 1⟩]⟩
    ⟨5, [⟨1/2, 1⟩], [⟨51/100, 1⟩]⟩ (1/100) (1/100) ⟨0, 1⟩ ⟨0, 1⟩ ⟨1/2, 1⟩ ⟨51/100, 1⟩
    rfl rfl rfl rfl rfl rfl rfl

/-! ### Monitor lemmas -/

theorem findPair_skip (books : List (ℕ × BookUpdate)) (book : BookUpdate)
    (l : List (ℕ × ℕ × ℕ))
    (h : ∀ e ∈ l, book.asset_id ≠ e.2.1 ∧ book.asset_id ≠ e.2.2) :
    findPair books book l = none := by
  induction l with
  | nil => rfl
  | cons e rest ih =>
    obtain ⟨mid, y, n⟩ := e
    have he : book.asset_id ≠ y ∧ book.asset_id ≠ n := h _ (List.mem_cons_self _ _)
    simp only [findPair, he.1, he.2, if_false]
    exact ih (fun e' he' => h e' (List.mem_cons_of_mem _ he'))

theorem findPair_append_skip (books : List (ℕ × BookUpdate)) (book : BookUpdate)
    (pre rest : List (ℕ × ℕ × ℕ))
    (h : ∀ e ∈ pre, book.asset_id ≠ e.2.1 ∧ book.asset_id ≠ e.2.2) :
    findPair books book (pre ++ rest) = findPair books book rest := by
  induction pre with
  | nil => rfl
  | cons e pre' ih =>
    obtain ⟨mid, y, n⟩ := e
    have he : book.asset_id ≠ y ∧ book.asset_id ≠ n := h _ (List.mem_cons_self _ _)
    simp only [List.cons_append, findPair, he.1, he.2, if_false]
    exact ih (fun e' he' => h e' (List.mem_cons_of_mem _ he'))

theorem run_updates_market_map (us : List BookUpdate) (st : OrderBookMonitor) :
    (OrderBookMonitor.run_updates st us).market_map = st.market_map := by
  induction us generalizing st with
  | nil => rfl
  | cons u rest ih =>
    rw [OrderBookMonitor.run_updates, ih]
    rfl

theorem run_updates_lookup (us : List BookUpdate) (st : OrderBookMonitor) (i : ℕ) :
    (lookupA (OrderBookMonitor.run_updates st us).books i).isSome = true ↔
      (lookupA st.books i).isSome = true ∨ i ∈ us.map BookUpdate.asset_id := by
  induction us generalizing st with
  | nil => simp [OrderBookMonitor.run_updates]
  | cons u rest ih =>
    rw [OrderBookMonitor.run_updates, ih]
    by_cases hi : i = u.asset_id
    · subst hi
      simp [OrderBookMonitor.handle_book_update, lookupA_insert_self]
    · simp [OrderBookMonitor.handle_book_update, lookupA_insert_ne _ _ _ _ hi, hi]

/-! ### Claims about the monitor -/

/-- Claim C8: `create_orderbook_stream` fails with the empty-subscription error
exactly when no market is registered; with at least one registered market the
collected token-id list is nonempty and this failure cannot occur. -/
theorem create_orderbook_stream_error_iff (st : OrderBookMonitor) :
    (∃ e, st.create_orderbook_stream = Except.error e) ↔ st.market_map = [] := by
  rcases hmm : st.market_map with _ | ⟨e, rest⟩ <;>
    simp [OrderBookMonitor.create_orderbook_stream, OrderBookMonitor.token_ids, hmm]

theorem handle_book_update_fst (st : OrderBookMonitor) (book : BookUpdate) :
    (st.handle_book_update book).1 =
      findPair (insertA st.books book.asset_id book) book st.market_map := rfl

/-- Claim C1: starting from an empty book cache, feed any sequence of updates
and then one more update `u` for one side of a well-formed registered market
`(m, y, n)`.  A pair for `m` is returned exactly when both the YES and the NO
token of `m` have been observed at least once by that point (the final update
included), and any pair returned is for `m`; in particular the first
observation of either side yields no pair. -/
theorem pair_iff_both_sides_observed (mm : List (ℕ × ℕ × ℕ)) (us : List BookUpdate)
    (u : BookUpdate) (m y n : ℕ)
    (hwf : WFmap mm) (hmem : (m, y, n) ∈ mm) (hside : u.asset_id = y ∨ u.asset_id = n) :
    ((∃ p, ((OrderBookMonitor.run_updates ⟨[], mm⟩ us).handle_book_update u).1 = some p ∧
          p.market_id = m) ↔
        (y ∈ (us ++ [u]).map BookUpdate.asset_id ∧ n ∈ (us ++ [u]).map BookUpdate.asset_id)) ∧
      (∀ p, ((OrderBookMonitor.run_updates ⟨[], mm⟩ us).handle_book_update u).1 = some p →
        p.market_id = m) := by
  have hyn : y ≠ n := hwf.1 (m, y, n) hmem
  obtain ⟨pre, suf, rfl⟩ := List.append_of_mem hmem
  have hPW := hwf.2
  rw [List.pairwise_append, List.pairwise_cons] at hPW
  have hskip_pre : ∀ e ∈ pre, u.asset_id ≠ e.2.1 ∧ u.asset_id ≠ e.2.2 := by
    intro e he
    have h4 : e.2.1 ≠ y ∧ e.2.1 ≠ n ∧ e.2.2 ≠ y ∧ e.2.2 ≠ n :=
      hPW.2.2 e he (m, y, n) (List.mem_cons_self _ _)
    rcases hside with hy | hn
    · exact ⟨fun hh => h4.1 (by rw [← hh, hy]), fun hh => h4.2.2.1 (by rw [← hh, hy])⟩
    · exact ⟨fun hh => h4.2.1 (by rw [← hh, hn]), fun hh => h4.2.2.2 (by rw [← hh, hn])⟩
  have hskip_suf : ∀ e ∈ suf, u.asset_id ≠ e.2.1 ∧ u.asset_id ≠ e.2.2 := by
    intro e he
    have h4 : y ≠ e.2.1 ∧ y ≠ e.2.2 ∧ n ≠ e.2.1 ∧ n ≠ e.2.2 := hPW.2.1.1 e he
    rcases hside with hy | hn
    · exact ⟨by rw [hy]; exact h4.1, by rw [hy]; exact h4.2.1⟩
    · exact ⟨by rw [hn]; exact h4.2.2.1, by rw [hn]; exact h4.2.2.2⟩
  have hbooks : ∀ i,
      (lookupA (OrderBookMonitor.run_updates ⟨[], pre ++ (m, y, n) :: suf⟩ us).books i).isSome
          = true ↔
        i ∈ us.map BookUpdate.asset_id := by
    intro i
    have h := run_updates_lookup us ⟨[], pre ++ (m, y, n) :: suf⟩ i
    simpa [lookupA] using h
  rw [handle_book_update_fst, run_updates_market_map us ⟨[], pre ++ (m, y, n) :: suf⟩,
    findPair_append_skip _ u pre ((m, y, n) :: suf) hskip_pre]
  rcases hside with hy | hn
  · have hnu : n ≠ u.asset_id := by rw [hy]; exact fun hh => hyn hh.symm
    rw [List.map_append, List.mem_append, List.mem_append]
    simp only [findPair, if_pos hy,
      lookupA_insert_ne (OrderBookMonitor.run_updates ⟨[], pre ++ (m, y, n) :: suf⟩ us).books
        u.asset_id n u hnu]
    cases hcache :
        lookupA (OrderBookMonitor.run_updates ⟨[], pre ++ (m, y, n) :: suf⟩ us).books n with
    | none =>
      rw [findPair_skip _ _ suf hskip_suf]
      refine ⟨⟨?_, ?_⟩, ?_⟩
      · rintro ⟨p, hp, -⟩
        exact absurd hp (by simp)
      · rintro ⟨-, hnin⟩
        rcases hnin with hnin | hnin
        · have hs := (hbooks n).mpr hnin
          rw [hcache] at hs
          exact absurd hs (by simp)
        · simp only [List.map_cons, List.map_nil, List.mem_singleton] at hnin
          rw [hy] at hnin
          exact absurd hnin.symm hyn
      · intro p hp
        exact absurd hp (by simp)
    | some nb =>
      refine ⟨⟨?_, ?_⟩, ?_⟩
      · intro _
        refine ⟨Or.inr ?_, Or.inl ((hbooks n).mp (by rw [hcache]; rfl))⟩
        simp [hy]
      · intro _
        exact ⟨⟨u, nb, m⟩, rfl, rfl⟩
      · intro p hp
        cases hp
        rfl
  · have hne : ¬u.asset_id = y := by rw [hn]; exact fun hh => hyn hh.symm
    have hyu : y ≠ u.asset_id := by rw [hn]; exact hyn
    rw [List.map_append, List.mem_append, List.mem_append]
    simp only [findPair, if_neg hne, if_pos hn,
      lookupA_insert_ne (OrderBookMonitor.run_updates ⟨[], pre ++ (m, y, n) :: suf⟩ us).books
        u.asset_id y u hyu]
    cases hcache :
        lookupA (OrderBookMonitor.run_updates ⟨[], pre ++ (m, y, n) :: suf⟩ us).books y with
    | none =>
      rw [findPair_skip _ _ suf hskip_suf]
      refine ⟨⟨?_, ?_⟩, ?_⟩
      · rintro ⟨p, hp, -⟩
        exact absurd hp (by simp)
      · rintro ⟨hyin, -⟩
        rcases hyin with hyin | hyin
        · have hs := (hbooks y).mpr hyin
          rw [hcache] at hs
          exact absurd hs (by simp)
        · simp only [List.map_cons, List.map_nil, List.mem_singleton] at hyin
          rw [hn] at hyin
          exact absurd hyin hyn
      · intro p hp
        exact absurd hp (by simp)
    | some yb =>
      refine ⟨⟨?_, ?_⟩, ?_⟩
      · intro _
        refine ⟨Or.inl ((hbooks y).mp (by rw [hcache]; rfl)), Or.inr ?_⟩
        simp [hn]
      · intro _
        exact ⟨⟨yb, u, m⟩, rfl, rfl⟩
      · intro p hp
        cases hp
        rfl

/-- Witness for C1: one registered market `(1, 10, 11)`; after an update for
token `10`, the update for token `11` completes the pair. -/
theorem pair_iff_both_sides_observed_witness :
    ((∃ p, ((OrderBookMonitor.run_updates ⟨[], [(1, 10, 11)]⟩
            [⟨10, [], []⟩]).handle_book_update ⟨11, [], []⟩).1 = some p ∧ p.market_id = 1) ↔
        (10 ∈ (([⟨10, [], []⟩] ++ [⟨11, [], []⟩]) : List BookUpdate).map BookUpdate.asset_id ∧
          11 ∈ (([⟨10, [], []⟩] ++ [⟨11, [], []⟩]) : List BookUpdate).map BookUpdate.asset_id)) ∧
      (∀ p, ((OrderBookMonitor.run_updates ⟨[], [(1, 10, 11)]⟩
          [⟨10, [], []⟩]).handle_book_update ⟨11, [], []⟩).1 = some p → p.market_id = 1) :=
  pair_iff_both_sides_observed [(1, 10, 11)] [⟨10, [], []⟩] ⟨11, [], []⟩ 1 10 11
    ⟨by simp, by simp⟩ (by simp) (Or.inr rfl)

/-- Claim C10: with a market registered whose YES and NO token ids are the
same token `t` (and no earlier registration touching `t`), any update for `t`
immediately returns a pair for that market whose `yes_book` and `no_book` are
both the just-received update — no warm-up, no rejection, from the very first
update on. -/
theorem degenerate_registration_pair (pre suf : List (ℕ × ℕ × ℕ))
    (books : List (ℕ × BookUpdate)) (m t : ℕ) (u : BookUpdate)
    (hpre : ∀ e ∈ pre, t ≠ e.2.1 ∧ t ≠ e.2.2) (hu : u.asset_id = t) :
    (OrderBookMonitor.handle_book_update ⟨books, pre ++ (m, t, t) :: suf⟩ u).1 =
      some ⟨u, u, m⟩ := by
  subst hu
  simp only [OrderBookMonitor.handle_book_update]
  rw [findPair_append_skip _ _ pre _ hpre]
  simp [findPair, lookupA_insert_self]

/-- Witness for C10: a single degenerate registration and its first update. -/
theorem degenerate_registration_pair_witness :
    (OrderBookMonitor.handle_book_update ⟨[], [(1, 5, 5)]⟩ ⟨5, [], []⟩).1 =
      some ⟨⟨5, [], []⟩, ⟨5, [], []⟩, 1⟩ :=
  degenerate_registration_pair [] [] [] 1 5 ⟨5, [], []⟩
    (fun e he => absurd he (List.not_mem_nil e)) rfl

end PolyBot
